import Mathlib

/-!
Shallow embedding of the collections-app server core (`src/server.rs`).

The store (`SavedUiViewSet`), its durable files, the notification
serializer, the WebSocket frame codec, the heartbeat loop and the path
canonicalization check are translated into executable Lean definitions.
Filesystem state is explicit: a file is keyed by the pair
(directory, file name); paths that the model treats as failing I/O are
listed in `FS.faulty` (standing for disk errors other than "not found").
Strings written by `format!` in the source are rebuilt by `++` on Lean
strings; literal braces are written with `\x7b` / `\x7d` escapes.
-/

namespace Collections

/-- Generic first-occurrence association-list lookup (the model of
`HashMap` lookup; Rust's `HashMap` is modelled as a key-value list whose
iteration order stands in for the map's unspecified order). -/
def lookupKey {κ α : Type} [DecidableEq κ] : List (κ × α) → κ → Option α
  | [], _ => none
  | (k, v) :: rest, key => if key = k then some v else lookupKey rest key

/-- Association-list update: the model of `HashMap::insert` (all earlier
bindings of the key are dropped, the new binding is put in front). -/
def upsertKey {κ α : Type} [DecidableEq κ] (l : List (κ × α)) (k : κ) (v : α) :
    List (κ × α) :=
  (k, v) :: l.filter (fun e => ¬ (e.1 = k))

/-- Association-list removal: the model of `HashMap::remove`. -/
def dropKey {κ α : Type} [DecidableEq κ] (l : List (κ × α)) (k : κ) :
    List (κ × α) :=
  l.filter (fun e => ¬ (e.1 = k))

/-- One saved reference: `struct SavedUiViewData` (title, date_added,
added_by); `date_added` is a `u64` millisecond timestamp. -/
structure SavedUiViewData where
  title : String
  date_added : Nat
  added_by : String
deriving DecidableEq, Repr

/-- On-disk file content: a token file holds a capnp-serialized
`ui_view_metadata` record (modelled as the record itself, `meta`), any
other file holds raw bytes (`bytes`). -/
inductive FileData
  | meta (d : SavedUiViewData)
  | bytes (bs : List Nat)
deriving DecidableEq, Repr

/-- The filesystem model: `files` maps (directory, file name) to content;
`faulty` lists paths on which create/write/unlink fail with an I/O error
other than "not found". -/
structure FS where
  files : List ((String × String) × FileData)
  faulty : List (String × String)
deriving DecidableEq, Repr

namespace FS

def read (fs : FS) (key : String × String) : Option FileData :=
  lookupKey fs.files key

def write (fs : FS) (key : String × String) (v : FileData) : FS :=
  { fs with files := upsertKey fs.files key v }

def unlink (fs : FS) (key : String × String) : FS :=
  { fs with files := dropKey fs.files key }

end FS

/-! ## Base64 (rustc_serialize `URL_SAFE`: `-`/`_` alphabet, no padding) -/

/-- One character of the URL-safe base64 alphabet. -/
def b64Char (n : Nat) : Char :=
  if n < 26 then Char.ofNat (65 + n)
  else if n < 52 then Char.ofNat (97 + (n - 26))
  else if n < 62 then Char.ofNat (48 + (n - 52))
  else if n = 62 then '-'
  else '_'

/-- URL-safe base64 of a byte list, without `=` padding — the behaviour of
`rustc_serialize`'s `to_base64(URL_SAFE)` (whose config has `pad: false`). -/
def b64EncodeChars : List Nat → List Char
  | a :: b :: c :: rest =>
      b64Char (a >>> 2) :: b64Char (((a &&& 3) <<< 4) ||| (b >>> 4)) ::
      b64Char (((b &&& 15) <<< 2) ||| (c >>> 6)) :: b64Char (c &&& 63) ::
      b64EncodeChars rest
  | [a, b] =>
      [b64Char (a >>> 2), b64Char (((a &&& 3) <<< 4) ||| (b >>> 4)),
       b64Char ((b &&& 15) <<< 2)]
  | [a] => [b64Char (a >>> 2), b64Char ((a &&& 3) <<< 4)]
  | [] => []

def toBase64UrlSafe (bs : List Nat) : String :=
  String.mk (b64EncodeChars bs)

/-! ## UTF-8 encoding and validation -/

/-- UTF-8 bytes of one scalar value (used to turn notification strings into
the byte payloads handed to the frame encoder). -/
def utf8EncodeChar (c : Char) : List Nat :=
  let n := c.toNat
  if n < 0x80 then [n]
  else if n < 0x800 then [0xC0 + n / 64, 0x80 + n % 64]
  else if n < 0x10000 then
    [0xE0 + n / 4096, 0x80 + (n / 64) % 64, 0x80 + n % 64]
  else
    [0xF0 + n / 262144, 0x80 + (n / 4096) % 64, 0x80 + (n / 64) % 64,
     0x80 + n % 64]

def utf8Encode (s : String) : List Nat :=
  (s.data.map utf8EncodeChar).flatten

/-- UTF-8 decoder implementing exactly the validation of Rust's
`str::from_utf8` (RFC 3629: continuation ranges, no overlong forms, no
surrogates, max U+10FFFF); `none` models `Utf8Error`. -/
def utf8DecodeChars : List Nat → Option (List Char)
  | [] => some []
  | b :: rest =>
    if b < 0x80 then (utf8DecodeChars rest).map (fun cs => Char.ofNat b :: cs)
    else if b < 0xC2 then none
    else if b < 0xE0 then
      match rest with
      | b2 :: rest2 =>
        if 0x80 ≤ b2 ∧ b2 < 0xC0 then
          (utf8DecodeChars rest2).map
            (fun cs => Char.ofNat ((b - 0xC0) * 64 + (b2 - 0x80)) :: cs)
        else none
      | [] => none
    else if b < 0xF0 then
      match rest with
      | b2 :: b3 :: rest2 =>
        let lo2 := if b = 0xE0 then 0xA0 else 0x80
        let hi2 := if b = 0xED then 0x9F else 0xBF
        if lo2 ≤ b2 ∧ b2 ≤ hi2 ∧ 0x80 ≤ b3 ∧ b3 < 0xC0 then
          (utf8DecodeChars rest2).map
            (fun cs =>
              Char.ofNat ((b - 0xE0) * 4096 + (b2 - 0x80) * 64 + (b3 - 0x80))
                :: cs)
        else none
      | _ => none
    else if b < 0xF5 then
      match rest with
      | b2 :: b3 :: b4 :: rest2 =>
        let lo2 := if b = 0xF0 then 0x90 else 0x80
        let hi2 := if b = 0xF4 then 0x8F else 0xBF
        if lo2 ≤ b2 ∧ b2 ≤ hi2 ∧ 0x80 ≤ b3 ∧ b3 < 0xC0 ∧ 0x80 ≤ b4 ∧
            b4 < 0xC0 then
          (utf8DecodeChars rest2).map
            (fun cs =>
              Char.ofNat ((b - 0xF0) * 262144 + (b2 - 0x80) * 4096 +
                (b3 - 0x80) * 64 + (b4 - 0x80)) :: cs)
        else none
      | _ => none
    else none

def utf8Decode (bs : List Nat) : Option String :=
  (utf8DecodeChars bs).map String.mk

/-! ## Decimal printing (Rust `u64` `Display`, used by `format!("{}", n)`) -/

def natDecimalChars (n : Nat) : List Char :=
  if h : n < 10 then [Char.ofNat (48 + n)]
  else natDecimalChars (n / 10) ++ [Char.ofNat (48 + n % 10)]
termination_by n
decreasing_by
  exact Nat.div_lt_self (by omega) (by omega)

def natDecimal (n : Nat) : String :=
  String.mk (natDecimalChars n)

/-! ## Frame codec (`encode_websocket_message` and the header fields read
by `WebSocketStream::send_bytes`) -/

/-- The length field pushed by `encode_websocket_message`, byte for byte:
one byte below 126, `0x7e` + 16-bit big-endian below `1 << 16`, else
`0x7f` followed by the shifts in the order the source pushes them
(`>> 56, >> 48, >> 40, >> 32, >> 16, >> 24, >> 8, len`); `as u8` is `% 256`. -/
def wsLengthField (len : Nat) : List Nat :=
  if len < 126 then [len]
  else if len < 1 <<< 16 then [0x7e, (len >>> 8) % 256, len % 256]
  else
    [0x7f, (len >>> 56) % 256, (len >>> 48) % 256, (len >>> 40) % 256,
     (len >>> 32) % 256, (len >>> 16) % 256, (len >>> 24) % 256,
     (len >>> 8) % 256, len % 256]

/-- `encode_websocket_message`: first byte `0x81` (FIN + text opcode), the
length field, then the payload bytes (`message.as_bytes()`). -/
def encode_websocket_message (message : List Nat) : List Nat :=
  0x81 :: wsLengthField message.length ++ message

/-- The header fields computed by `WebSocketStream::send_bytes` on a
received frame: `(message[0] & 0xf, (message[1] & 0x80) != 0,
message[1] & 0x7f)` — opcode, mask flag, short length. -/
def send_bytes_header (message : List Nat) : Nat × Bool × Nat :=
  (message.getD 0 0 &&& 0xf,
   (message.getD 1 0 &&& 0x80) != 0,
   message.getD 1 0 &&& 0x7f)

/-- Modelled from the spec: the receive path in the source
(`send_bytes`) parses only the two header bytes; the spec's
`decode` contract additionally yields the payload, which in the
short-length regime (no extended length, no mask key) is everything
after the two header bytes. -/
def decode_short_payload (frame : List Nat) : List Nat :=
  frame.drop 2

/-! ## Notification serialization (`SavedUiViewData::to_json`,
`Action::to_json`) -/

/-- `SavedUiViewData::to_json`: the `format!` string
`{"title":"{}","date_added": "{}","added_by":"{}"}` with the fields
interpolated verbatim (no escaping). -/
def SavedUiViewData.to_json (d : SavedUiViewData) : String :=
  ("\x7b\"title\":\"") ++ d.title ++ ("\",\"date_added\": \"") ++
    natDecimal d.date_added ++ ("\",\"added_by\":\"") ++ d.added_by ++
    ("\"\x7d")

/-- `enum Action`: the four notification variants. -/
inductive Action
  | Insert (token : String) (data : SavedUiViewData)
  | Remove (token : String)
  | CanWrite (b : Bool)
  | Description (s : String)
deriving DecidableEq, Repr

/-- `Action::to_json`, `format!` string for `format!`, spaces included:
`{"insert":{"token":"{}","data":{} } }`, `{"remove":{"token":"{}"}}`,
`{"canWrite":{}}`, `{"description":"{}"}`. -/
def Action.to_json : Action → String
  | .Insert token data =>
      ("\x7b\"insert\":\x7b\"token\":\"") ++ token ++ ("\",\"data\":") ++
        data.to_json ++ (" \x7d \x7d")
  | .Remove token => ("\x7b\"remove\":\x7b\"token\":\"") ++ token ++ ("\"\x7d\x7d")
  | .CanWrite b => ("\x7b\"canWrite\":") ++ (if b then ("true") else ("false")) ++ ("\x7d")
  | .Description s => ("\x7b\"description\":\"") ++ s ++ ("\"\x7d")

/-! ## The reference store (`SavedUiViewSet`) -/

/-- `struct SavedUiViewSet`. Subscribers map an id to the stream handle
(modelled as an opaque `Nat`); the background `tasks` set is not state
observable by any claim, so the frames pushed by a mutation are returned
to the caller as an outbox `List (Nat × List Nat)` of
(stream handle, frame bytes) pairs instead. -/
structure SavedUiViewSet where
  base_path : String
  views : List (String × SavedUiViewData)
  next_id : Nat
  subscribers : List (Nat × Nat)
  description : String
deriving DecidableEq, Repr

namespace SavedUiViewSet

/-- `send_message_to_subscribers`: one `sendBytes` call per current
subscriber, each carrying `encode_websocket_message` of the message. -/
def send_message_to_subscribers (set : SavedUiViewSet) (message : String) :
    List (Nat × List Nat) :=
  set.subscribers.map
    (fun sub => (sub.2, encode_websocket_message (utf8Encode message)))

/-- `SavedUiViewSet::insert`. The ambient clock
(`SystemTime::now - UNIX_EPOCH`, in milliseconds) is passed in as `now`.
The token is the URL-safe base64 of the raw bytes; the file is created at
`base_path/token` (`File::create` + `write_message` are modelled as one
atomic write that fails, leaving the filesystem unchanged, when the path
is faulty); then the `Insert` notification is broadcast and the in-memory
map updated. -/
def insert (set : SavedUiViewSet) (fs : FS) (binary_token : List Nat)
    (title added_by : String) (now : Nat) :
    Except String (SavedUiViewSet × FS × List (Nat × List Nat)) :=
  let token := toBase64UrlSafe binary_token
  if (set.base_path, token) ∈ fs.faulty then .error ("could not write token file")
  else
    let entry : SavedUiViewData :=
      { title := title, date_added := now, added_by := added_by }
    let fs2 := fs.write (set.base_path, token) (.meta entry)
    let out := set.send_message_to_subscribers (Action.to_json (.Insert token entry))
    .ok ({ set with views := upsertKey set.views token entry }, fs2, out)

/-- `SavedUiViewSet::remove`. The unlink goes to the hardcoded
`/var/sturdyrefs/{token}` (not `base_path`); a missing file is not an
error, any other unlink error (a faulty path) aborts before the broadcast
and the map update. -/
def remove (set : SavedUiViewSet) (fs : FS) (token : String) :
    Except String (SavedUiViewSet × FS × List (Nat × List Nat)) :=
  if (("/var/sturdyrefs"), token) ∈ fs.faulty then .error ("could not unlink")
  else
    let fs2 := fs.unlink (("/var/sturdyrefs"), token)
    let out := set.send_message_to_subscribers (Action.to_json (.Remove token))
    .ok ({ set with views := dropKey set.views token }, fs2, out)

/-- `SavedUiViewSet::update_description`: validate UTF-8 first (failure
touches nothing), then write `/var/description.uploading` and rename it
over `/var/description` (modelled as one write to the target; a faulty
temp or target path is the write/rename error), then update the in-memory
description and broadcast. -/
def update_description (set : SavedUiViewSet) (fs : FS)
    (description : List Nat) :
    Except String (SavedUiViewSet × FS × List (Nat × List Nat)) :=
  match utf8Decode description with
  | none => .error ("invalid utf-8")
  | some desc_string =>
    if (("/var"), ("description.uploading")) ∈ fs.faulty then
      .error ("could not write temp file")
    else if (("/var"), ("description")) ∈ fs.faulty then
      .error ("could not rename")
    else
      let fs2 := fs.write (("/var"), ("description")) (.bytes description)
      let set2 := { set with description := desc_string }
      let out := set2.send_message_to_subscribers
        (Action.to_json (.Description desc_string))
      .ok (set2, fs2, out)

/-- The directory scan in `SavedUiViewSet::new`: each file of the token
directory must open and deserialize as a `ui_view_metadata` record
(a `bytes` file or a faulty path is the corresponding I/O / capnp error);
entries are keyed by file name in directory order. -/
def loadViews (dir : String) (faulty : List (String × String)) :
    List ((String × String) × FileData) →
    Except String (List (String × SavedUiViewData))
  | [] => .ok []
  | ((d, name), data) :: rest =>
    if d = dir then
      if (d, name) ∈ faulty then .error ("could not open token file")
      else
        match data with
        | .meta m => (loadViews dir faulty rest).map (fun vs => (name, m) :: vs)
        | .bytes _ => .error ("malformed token file")
    else loadViews dir faulty rest

/-- What `read_to_string` leaves in the buffer for the description file:
the decoded text, or `""` when the bytes are not valid UTF-8 (the source
ignores the `read_to_string` error). A capnp `meta` file is not valid
text; it also reads as `""`. -/
def descriptionText : FileData → String
  | .bytes bs => (utf8Decode bs).getD ""
  | .meta _ => ""

/-- `SavedUiViewSet::new`: create the token directory (implicit in the
model), scan it into the map, then load `/var/description`, creating it
with the default text when absent. -/
def new (token_directory : String) (fs : FS) :
    Except String (SavedUiViewSet × FS) :=
  match loadViews token_directory fs.faulty fs.files with
  | .error e => .error e
  | .ok vs =>
    match fs.read (("/var"), ("description")) with
    | some f =>
        .ok ({ base_path := token_directory, views := vs, next_id := 0,
               subscribers := [], description := descriptionText f }, fs)
    | none =>
      if (("/var"), ("description")) ∈ fs.faulty then
        .error ("could not create description file")
      else
        let d : String := "this is a description"
        .ok ({ base_path := token_directory, views := vs, next_id := 0,
               subscribers := [], description := d },
             fs.write (("/var"), ("description")) (.bytes (utf8Encode d)))

/-- `SavedUiViewSet::new_subscribed_websocket`: allocate the next id,
register the stream, and chain the replay pushes — the `CanWrite` flag,
the `Description`, then one `Insert` per stored view in map order.
Returns the updated set, the new id, and the replayed notifications (each
is sent as `encode_websocket_message` of its `to_json`). -/
def new_subscribed_websocket (set : SavedUiViewSet) (client_stream : Nat)
    (can_write : Bool) : SavedUiViewSet × Nat × List Action :=
  let id := set.next_id
  let set2 : SavedUiViewSet :=
    { set with
        next_id := id + 1
        subscribers := upsertKey set.subscribers id client_stream }
  (set2, id,
   Action.CanWrite can_write :: Action.Description set.description ::
     set.views.map (fun tv => Action.Insert tv.1 tv.2))

/-- The frames actually pushed to a fresh subscriber: each replayed
notification serialized and framed. -/
def replayFrames (set : SavedUiViewSet) (client_stream : Nat)
    (can_write : Bool) : List (List Nat) :=
  (set.new_subscribed_websocket client_stream can_write).2.2.map
    (fun a => encode_websocket_message (utf8Encode a.to_json))

end SavedUiViewSet

/-- `impl Drop for WebSocketStream`: dropping the connection object
removes its id from the subscriber map. This is the only code path that
deregisters a subscriber. -/
def webSocketStreamDrop (id : Nat) (set : SavedUiViewSet) : SavedUiViewSet :=
  { set with subscribers := dropKey set.subscribers id }

/-! ## Heartbeat (`do_ping_pong`, the `0xa` arm of `send_bytes`, and the
`map_else` wrapper in `WebSocketStream::new`) -/

/-- An observable event of one streaming connection: a frame received by
`send_bytes`, or the 10-second deadline of the current ping firing. -/
inductive HBEvent
  | frame (message : List Nat)
  | deadline
deriving DecidableEq, Repr

/-- Run the heartbeat from a given `awaiting_pong` flag over a list of
events. A received frame updates the flag exactly as `send_bytes` does
(only opcode `0xa` clears it). When a deadline fires with the flag still
set, `do_ping_pong` yields `Err("pong not received within 10 seconds")`
(`none`, the `Failed` state); otherwise it recurses, sending a new ping
and setting the flag (`awaiting_pong.set(true)`). `some b` is a live
machine whose flag is `b`. -/
def hbRun (awaiting : Bool) : List HBEvent → Option Bool
  | [] => some awaiting
  | .frame message :: rest =>
      hbRun (if message.getD 0 0 &&& 0xf = 0xa then false else awaiting) rest
  | .deadline :: rest => if awaiting then none else hbRun true rest

/-- The `map_else` closure in `WebSocketStream::new`: both the `Ok` and
the `Err` outcome of the ping-pong chain are mapped to `Ok(())` (the
error is only printed). -/
def pingPongMapElse : Except String Unit → Except String Unit
  | .ok _ => .ok ()
  | .error _ => .ok ()

/-- The complete effect of one firing deadline on the store and the
heartbeat: when `awaiting_pong` is still set the chain ends in the
`Failed` error (`none`), which `pingPongMapElse` swallows — no statement
in the source touches `subscribers` on this path, so the store is
returned unchanged; otherwise a new cycle starts. -/
def connectionDeadlineStep (set : SavedUiViewSet) (awaiting : Bool) :
    SavedUiViewSet × Option Bool :=
  (set, if awaiting then none else some true)

/-- Is this event a frame whose opcode nibble is `0xa` (a pong, the only
arm of `send_bytes` that clears `awaiting_pong`)? -/
def isPongFrame : HBEvent → Bool
  | .frame m => m.getD 0 0 &&& 0xf = 0xa
  | .deadline => false

/-- Is this event a received frame (as opposed to a deadline)? -/
def isFrameEvent : HBEvent → Bool
  | .frame _ => true
  | .deadline => false

/-- Interleave ping cycles: each segment is the events of one cycle,
terminated by that cycle's deadline. -/
def joinCycles : List (List HBEvent) → List HBEvent
  | [] => []
  | seg :: rest => seg ++ HBEvent.deadline :: joinCycles rest

/-! ## Path canonicalization (`WebSession::require_canonical_path`) -/

/-- Rust `str::split('/')` over the character sequence: `acc` holds the
(reversed) characters of the segment being read. The empty string yields
`[""]`, `"a//b"` yields `["a", "", "b"]`. -/
def splitSlashAux : List Char → List Char → List String
  | [], acc => [String.mk acc.reverse]
  | c :: rest, acc =>
    if c = '/' then String.mk acc.reverse :: splitSlashAux rest []
    else splitSlashAux rest (c :: acc)

/-- The `/`-separated components of a path (Rust `str::split('/')`). -/
def pathComponents (p : String) : List String :=
  splitSlashAux p.data []

/-- Rust `str::split_terminator('/')`: like split, but without the final
empty component when the string ends with the separator (and with no
component at all for the empty string). -/
def splitTerminator (p : String) : List String :=
  if (pathComponents p).getLast? = some ("") then (pathComponents p).dropLast
  else pathComponents p

/-- The indexed loop body of `require_canonical_path`. -/
def canonicalLoop : Nat → List String → Except String Unit
  | _, [] => .ok ()
  | idx, c :: rest =>
    if c = (".") ∨ c = ("..") ∨ (c = ("") ∧ idx > 0) then
      .error (("non-canonical path: ") ++ c)
    else canonicalLoop (idx + 1) rest

/-- `require_canonical_path`: reject any `split_terminator('/')` component
equal to `.` or `..`, or empty at a non-zero index. -/
def require_canonical_path (path : String) : Except String Unit :=
  canonicalLoop 0 (splitTerminator path)

/-! ## Operation sequences (for the durability round-trip) -/

/-- One store mutation of the durability claim; `insert` carries the
ambient clock value it observes. -/
inductive StoreOp
  | insert (raw : List Nat) (title added_by : String) (now : Nat)
  | remove (token : String)
deriving DecidableEq, Repr

/-- Apply one operation; a failed operation leaves the state exactly as
the early `return Err` in the source leaves it. -/
def applyOp (s : SavedUiViewSet) (fs : FS) : StoreOp → SavedUiViewSet × FS
  | .insert raw title added_by now =>
    match s.insert fs raw title added_by now with
    | .ok r => (r.1, r.2.1)
    | .error _ => (s, fs)
  | .remove token =>
    match s.remove fs token with
    | .ok r => (r.1, r.2.1)
    | .error _ => (s, fs)

def applyOps (s : SavedUiViewSet) (fs : FS) : List StoreOp →
    SavedUiViewSet × FS
  | [] => (s, fs)
  | op :: rest =>
    let p := applyOp s fs op
    applyOps p.1 p.2 rest

/-! ## Spec-side definitions, used only to compare against the source -/

/-- The three-tier length field as the spec's words describe it, with the
64-bit tier in true big-endian byte order; written from the spec for
comparison with `wsLengthField`. -/
def specLengthField (len : Nat) : List Nat :=
  if len < 126 then [len]
  else if len < 1 <<< 16 then [0x7e, (len >>> 8) % 256, len % 256]
  else
    [0x7f, (len >>> 56) % 256, (len >>> 48) % 256, (len >>> 40) % 256,
     (len >>> 32) % 256, (len >>> 24) % 256, (len >>> 16) % 256,
     (len >>> 8) % 256, len % 256]

/-- The claim's notion of a non-canonical path, written from the spec's
words: a `.` component, a `..` component, or an empty interior component
(one that is neither the first nor the last component). -/
def hasBadComponent (p : String) : Prop :=
  (".") ∈ pathComponents p ∨ ("..") ∈ pathComponents p ∨
    ("") ∈ ((pathComponents p).drop 1).dropLast

instance (p : String) : Decidable (hasBadComponent p) := by
  unfold hasBadComponent
  infer_instance

/-! ## Predicates and helpers used by the claim statements -/

/-- Is this action an `Insert` notification for the given token? -/
def isInsertFor (t : String) : Action → Bool
  | .Insert tok _ => tok = t
  | _ => false

/-- How many `Insert` notifications for a token a notification list holds. -/
def insertCount (t : String) (actions : List Action) : Nat :=
  (actions.filter (isInsertFor t)).length

/-- A string free of double quotes and backslashes (the inputs for which
the claim asserts the unescaped serializer stays well-formed). -/
def noQuoteOrBackslash (s : String) : Prop :=
  ∀ c ∈ s.data, c ≠ '"' ∧ c ≠ '\\'

instance (s : String) : Decidable (noQuoteOrBackslash s) := by
  unfold noQuoteOrBackslash
  infer_instance

/-- Drop an expected literal prefix from the character stream (the
skeleton of the serialized record), or fail. -/
def dropLit : List Char → List Char → Option (List Char)
  | [], cs => some cs
  | l :: ls, c :: cs => if c = l then dropLit ls cs else none
  | _ :: _, [] => none

/-- Read a string value of the documented record shape: the characters up
to the next `"` (the serializer writes field values verbatim, so the
shape's string literals have no escape sequences), consuming the
closing quote. -/
def readQuoted : List Char → Option (List Char × List Char)
  | [] => none
  | c :: cs =>
    if c = '"' then some ([], cs)
    else (readQuoted cs).map (fun p => (c :: p.1, p.2))

/-- Parse a serialized `Insert` notification of the documented shape
`{"insert":{"token":"…","data":{"title":"…","date_added": "…",
"added_by":"…"} } }`, recovering the four field values; `none` means the
payload is not a well-formed record of that shape. -/
def decodeInsertShape (s : String) :
    Option (String × String × String × String) :=
  (dropLit (("\x7b\"insert\":\x7b\"token\":\"").data) s.data).bind fun r1 =>
  (readQuoted r1).bind fun tk =>
  (dropLit ((",\"data\":").data) tk.2).bind fun r2 =>
  (dropLit (("\x7b\"title\":\"").data) r2).bind fun r3 =>
  (readQuoted r3).bind fun tt =>
  (dropLit ((",\"date_added\": \"").data) tt.2).bind fun r5 =>
  (readQuoted r5).bind fun da =>
  (dropLit ((",\"added_by\":\"").data) da.2).bind fun r7 =>
  (readQuoted r7).bind fun ab =>
  if ab.2 = ("\x7d \x7d \x7d").data then
    some (String.mk tk.1, String.mk tt.1, String.mk da.1, String.mk ab.1)
  else none

/-- The durability invariant relating the in-memory map to the on-disk
files at the hardcoded removal root: every token's in-memory entry is
exactly the decoded content of `/var/sturdyrefs/<token>`. -/
def StoreFsAgree (s : SavedUiViewSet) (fs : FS) : Prop :=
  ∀ k : String,
    lookupKey s.views k =
      (fs.read (("/var/sturdyrefs"), k)).bind
        (fun f => match f with | .meta d => some d | .bytes _ => none)

/-! ## Concrete states for counterexamples and witnesses -/

/-- A store with one open subscriber (id 0, stream handle 7). -/
def demoStore : SavedUiViewSet :=
  { base_path := ("/var/sturdyrefs"), views := [], next_id := 1,
    subscribers := [(0, 7)], description := ("d") }

/-- An empty filesystem with no faulty paths. -/
def emptyFS : FS := { files := [], faulty := [] }

/-- The store produced by `SavedUiViewSet::new` on the hardcoded root over
an empty filesystem (first run: default description). -/
def freshRootStore : SavedUiViewSet :=
  { base_path := ("/var/sturdyrefs"), views := [], next_id := 0,
    subscribers := [], description := ("this is a description") }

/-- The filesystem after that first run: only the freshly created
description file. -/
def freshRootFS : FS :=
  emptyFS.write (("/var"), ("description"))
    (.bytes (utf8Encode ("this is a description")))

/-- A two-operation trace: insert raw byte `[0x01]` (token `AQ`), then
remove token `AQ`. -/
def demoOps : List StoreOp :=
  [StoreOp.insert [1] ("t") ("a") 7, StoreOp.remove ("AQ")]

/-- A store holding one saved reference under token `AQ`. -/
def demoViewStore : SavedUiViewSet :=
  { base_path := ("/var/sturdyrefs"),
    views := [(("AQ"), { title := ("t"), date_added := 7, added_by := ("a") })],
    next_id := 1, subscribers := [(0, 7)], description := ("d") }

/-! # Helper lemmas -/

theorem and_128_eq_zero {n : Nat} (h : n < 128) : n &&& 128 = 0 := by
  have h2 := Nat.and_two_pow n 7
  rw [Nat.testBit_lt_two_pow (by omega : n < 2 ^ 7)] at h2
  simpa using h2

theorem and_127_eq_self {n : Nat} (h : n < 128) : n &&& 127 = n := by
  have h2 := Nat.and_pow_two_sub_one_eq_mod n 7
  norm_num at h2
  rw [h2, Nat.mod_eq_of_lt h]

theorem encode_short (p : List Nat) (h : p.length ≤ 125) :
    encode_websocket_message p = 0x81 :: p.length :: p := by
  have h126 : p.length < 126 := by omega
  simp [encode_websocket_message, wsLengthField, h126]

/-! # Claim theorems -/

/-- C7: for every payload of at most 125 bytes, the frame produced by
`encode_websocket_message` decodes on the receive path
(`send_bytes_header`, short-length regime) to the text opcode `0x1`,
mask flag `false`, and the correct payload length, and the bytes after
the two header bytes are the original payload. -/
theorem C7_short_frame_roundtrip (p : List Nat) (h : p.length ≤ 125) :
    send_bytes_header (encode_websocket_message p) = (0x1, false, p.length) ∧
    decode_short_payload (encode_websocket_message p) = p := by
  rw [encode_short p h]
  refine ⟨?_, rfl⟩
  have hm : p.length &&& 0x80 = 0 := and_128_eq_zero (by omega)
  have hl : p.length &&& 0x7f = p.length := and_127_eq_self (by omega)
  simp [send_bytes_header, hm, hl]
  decide

/-- C7 witness: the round-trip at the concrete payload `[104, 105]`. -/
theorem C7_short_frame_roundtrip_witness :
    send_bytes_header (encode_websocket_message [104, 105]) =
        (0x1, false, 2) ∧
      decode_short_payload (encode_websocket_message [104, 105]) =
        [104, 105] :=
  C7_short_frame_roundtrip [104, 105] (by decide)

/-- C3 (code bug): the first byte and the first two length tiers are as
the claim states, but the 64-bit tier is not big-endian — the source
pushes the `>> 16` byte before the `>> 24` byte, so for a payload of
65536 bytes the emitted length field is `00 00 00 00 01 00 00 00`
where the claimed 64-bit big-endian encoding (`specLengthField`) is
`00 00 00 00 00 01 00 00`. -/
theorem C3_64bit_length_not_big_endian :
    (encode_websocket_message (List.replicate 65536 0)).take 10 =
        0x81 :: wsLengthField 65536 ∧
      wsLengthField 65536 = [0x7f, 0, 0, 0, 0, 1, 0, 0, 0] ∧
      specLengthField 65536 = [0x7f, 0, 0, 0, 0, 0, 1, 0, 0] ∧
      wsLengthField 65536 ≠ specLengthField 65536 := by
  have hf : wsLengthField 65536 = [0x7f, 0, 0, 0, 0, 1, 0, 0, 0] := by decide
  have hs : specLengthField 65536 = [0x7f, 0, 0, 0, 0, 0, 1, 0, 0] := by decide
  refine ⟨?_, hf, hs, by rw [hf, hs]; decide⟩
  rw [encode_websocket_message, List.length_replicate, hf]
  rfl

/-! ## Path canonicalization lemmas -/

theorem canonicalLoop_err_of_mem_dots (l : List String) (start : Nat)
    (h : (".") ∈ l ∨ ("..") ∈ l) :
    (canonicalLoop start l).isOk = false := by
  induction l generalizing start with
  | nil => simp at h
  | cons x rest ih =>
    simp only [canonicalLoop]
    split
    · rfl
    · rename_i hcond
      apply ih (start + 1)
      rcases h with h | h
      · rcases List.mem_cons.mp h with h2 | h2
        · exact absurd (Or.inl h2.symm) hcond
        · exact Or.inl h2
      · rcases List.mem_cons.mp h with h2 | h2
        · exact absurd (Or.inr (Or.inl h2.symm)) hcond
        · exact Or.inr h2

theorem canonicalLoop_err_of_mem_empty (l : List String) (start : Nat)
    (hs : 0 < start) (h : ("") ∈ l) :
    (canonicalLoop start l).isOk = false := by
  induction l generalizing start with
  | nil => simp at h
  | cons x rest ih =>
    simp only [canonicalLoop]
    split
    · rfl
    · rename_i hcond
      apply ih (start + 1) (by omega)
      rcases List.mem_cons.mp h with h2 | h2
      · exact absurd (Or.inr (Or.inr ⟨h2.symm, hs⟩)) hcond
      · exact h2

theorem canonicalLoop_err_of_empty_tail (x : String) (l : List String)
    (start : Nat) (h : ("") ∈ l) :
    (canonicalLoop start (x :: l)).isOk = false := by
  simp only [canonicalLoop]
  split
  · rfl
  · exact canonicalLoop_err_of_mem_empty l (start + 1) (by omega) h

theorem mem_splitTerminator_of_ne (p : String) (a : String) (ha : a ≠ (""))
    (h : a ∈ pathComponents p) : a ∈ splitTerminator p := by
  unfold splitTerminator
  split
  · rename_i hlast
    have hne : pathComponents p ≠ [] := by
      intro h0
      rw [h0] at h
      simp at h
    have hsplit := List.dropLast_append_getLast hne
    have hget : (pathComponents p).getLast hne = ("") := by
      have := List.getLast?_eq_getLast (pathComponents p) hne
      rw [this] at hlast
      exact (Option.some_injective _ hlast.symm).symm
    rw [← hsplit] at h
    rcases List.mem_append.mp h with h2 | h2
    · exact h2
    · rw [hget] at h2
      simp at h2
      exact absurd h2 ha
  · exact h

theorem dropLast_drop_one {α : Type} (l : List α) :
    l.dropLast.drop 1 = (l.drop 1).dropLast := by
  match l with
  | [] => rfl
  | [x] => rfl
  | x :: y :: rest => rfl

theorem mem_drop_one_splitTerminator (p : String)
    (h : ("") ∈ ((pathComponents p).drop 1).dropLast) :
    ("") ∈ (splitTerminator p).drop 1 := by
  unfold splitTerminator
  split
  · rw [dropLast_drop_one]
    exact h
  · exact List.dropLast_subset _ h

/-- C9: the canonicalization check rejects every path with a `.`
component, a `..` component, or an empty interior component; in
particular it rejects `a/../b`, `./x` and `a//b`, and accepts `a/b/c`
and the empty path. -/
theorem C9_canonical_path_rejects_bad_components :
    (∀ p : String, hasBadComponent p →
        (require_canonical_path p).isOk = false) ∧
      (require_canonical_path ("a/../b")).isOk = false ∧
      (require_canonical_path ("./x")).isOk = false ∧
      (require_canonical_path ("a//b")).isOk = false ∧
      require_canonical_path ("a/b/c") = .ok () ∧
      require_canonical_path ("") = .ok () := by
  refine ⟨?_, by decide, by decide, by decide, rfl, rfl⟩
  intro p hbad
  rcases hbad with h | h | h
  · exact canonicalLoop_err_of_mem_dots _ 0
      (Or.inl (mem_splitTerminator_of_ne p _ (by decide) h))
  · exact canonicalLoop_err_of_mem_dots _ 0
      (Or.inr (mem_splitTerminator_of_ne p _ (by decide) h))
  · have h2 := mem_drop_one_splitTerminator p h
    unfold require_canonical_path
    match hst : splitTerminator p with
    | [] => rw [hst] at h2; simp at h2
    | x :: rest =>
      rw [hst] at h2
      exact canonicalLoop_err_of_empty_tail x rest 0 h2

/-- C9 witness: the universal part applied to the concrete bad path
`x/./y`. -/
theorem C9_canonical_path_rejects_bad_components_witness :
    (require_canonical_path ("x/./y")).isOk = false :=
  C9_canonical_path_rejects_bad_components.1 ("x/./y") (by decide)

/-! ## Association-list lemmas -/

theorem lookupKey_eq_none_of_not_mem {κ α : Type} [DecidableEq κ]
    (l : List (κ × α)) (k : κ) (h : k ∉ l.map Prod.fst) :
    lookupKey l k = none := by
  induction l with
  | nil => rfl
  | cons e rest ih =>
    simp only [List.map_cons, List.mem_cons] at h
    push_neg at h
    simp only [lookupKey, if_neg h.1]
    exact ih h.2

theorem lookupKey_filter_ne {κ α : Type} [DecidableEq κ]
    (l : List (κ × α)) (k k2 : κ) (h : k2 ≠ k) :
    lookupKey (l.filter (fun e => ¬ (e.1 = k))) k2 = lookupKey l k2 := by
  induction l with
  | nil => rfl
  | cons e rest ih =>
    by_cases he : e.1 = k
    · rw [List.filter_cons_of_neg (by simpa using he), ih]
      have : ¬ (k2 = e.1) := by rw [he]; exact h
      simp only [lookupKey, if_neg this]
    · rw [List.filter_cons_of_pos (by simpa using he)]
      by_cases hk : k2 = e.1
      · simp only [lookupKey, if_pos hk]
      · simp only [lookupKey, if_neg hk]
        exact ih

theorem lookupKey_dropKey_self {κ α : Type} [DecidableEq κ]
    (l : List (κ × α)) (k : κ) : lookupKey (dropKey l k) k = none := by
  induction l with
  | nil => rfl
  | cons e rest ih =>
    by_cases he : e.1 = k
    · rw [dropKey, List.filter_cons_of_neg (by simpa using he)]
      exact ih
    · rw [dropKey, List.filter_cons_of_pos (by simpa using he)]
      simp only [lookupKey, if_neg (fun h2 : k = e.1 => he h2.symm)]
      exact ih

theorem lookupKey_dropKey_ne {κ α : Type} [DecidableEq κ]
    (l : List (κ × α)) (k k2 : κ) (h : k2 ≠ k) :
    lookupKey (dropKey l k) k2 = lookupKey l k2 :=
  lookupKey_filter_ne l k k2 h

theorem lookupKey_upsertKey_self {κ α : Type} [DecidableEq κ]
    (l : List (κ × α)) (k : κ) (v : α) :
    lookupKey (upsertKey l k v) k = some v := by
  simp [upsertKey, lookupKey]

theorem lookupKey_upsertKey_ne {κ α : Type} [DecidableEq κ]
    (l : List (κ × α)) (k k2 : κ) (v : α) (h : k2 ≠ k) :
    lookupKey (upsertKey l k v) k2 = lookupKey l k2 := by
  simp only [upsertKey, lookupKey, if_neg h]
  exact lookupKey_filter_ne l k k2 h

/-- C5: for every token, `remove` on a filesystem with no corresponding
file (and no injected unlink fault) succeeds, broadcasts a `Remove`
notification for that token to every subscriber, and leaves the token
absent from the in-memory map; and `remove` returns an error exactly
when the unlink fails with an error other than not-found (a faulty
path). -/
theorem C5_remove_missing_file
    (s : SavedUiViewSet) (fs : FS) (token : String) :
    ((fs.read (("/var/sturdyrefs"), token) = none ∧
        (("/var/sturdyrefs"), token) ∉ fs.faulty) →
      ∃ s2 fs2 out, s.remove fs token = .ok (s2, fs2, out) ∧
        out = s.subscribers.map (fun sub =>
          (sub.2, encode_websocket_message
            (utf8Encode (Action.to_json (.Remove token))))) ∧
        lookupKey s2.views token = none) ∧
    ((s.remove fs token).isOk = false ↔
      (("/var/sturdyrefs"), token) ∈ fs.faulty) := by
  constructor
  · rintro ⟨-, hok⟩
    rw [SavedUiViewSet.remove, if_neg hok]
    exact ⟨_, _, _, rfl, rfl, lookupKey_dropKey_self s.views token⟩
  · rw [SavedUiViewSet.remove]
    by_cases hf : (("/var/sturdyrefs"), token) ∈ fs.faulty
    · simp [hf, Except.isOk, Except.toBool]
    · simp [hf, Except.isOk, Except.toBool]

/-- C5 witness: removing the absent token `AQ` from a store with one
subscriber over an empty filesystem. -/
theorem C5_remove_missing_file_witness :
    (∃ s2 fs2 out, demoStore.remove emptyFS ("AQ") = .ok (s2, fs2, out) ∧
      out = demoStore.subscribers.map (fun sub =>
        (sub.2, encode_websocket_message
          (utf8Encode (Action.to_json (.Remove ("AQ")))))) ∧
      lookupKey s2.views ("AQ") = none) ∧
    ((demoStore.remove emptyFS ("AQ")).isOk = false ↔
      (("/var/sturdyrefs"), ("AQ")) ∈ emptyFS.faulty) :=
  ⟨(C5_remove_missing_file demoStore emptyFS ("AQ")).1 ⟨rfl, by decide⟩,
   (C5_remove_missing_file demoStore emptyFS ("AQ")).2⟩

/-- C8: `update_description` errors exactly when the bytes are not valid
UTF-8 or the temp-file write or the rename fails; on the invalid-encoding
error it returns before any state change or broadcast (the result carries
no new store state and no outbox); on success the in-memory description
is the decoded text and a `Description` notification goes to every
subscriber. -/
theorem C8_update_description
    (s : SavedUiViewSet) (fs : FS) (bs : List Nat) :
    ((s.update_description fs bs).isOk = false ↔
      (utf8Decode bs = none ∨
        (("/var"), ("description.uploading")) ∈ fs.faulty ∨
        (("/var"), ("description")) ∈ fs.faulty)) ∧
    (utf8Decode bs = none →
      s.update_description fs bs = .error ("invalid utf-8")) ∧
    (∀ d, utf8Decode bs = some d →
      (("/var"), ("description.uploading")) ∉ fs.faulty →
      (("/var"), ("description")) ∉ fs.faulty →
      s.update_description fs bs =
        .ok ({ s with description := d },
          fs.write (("/var"), ("description")) (.bytes bs),
          s.subscribers.map (fun sub =>
            (sub.2, encode_websocket_message
              (utf8Encode (Action.to_json (.Description d))))))) := by
  refine ⟨?_, ?_, ?_⟩
  · rw [SavedUiViewSet.update_description]
    match hd : utf8Decode bs with
    | none => simp [Except.isOk, Except.toBool]
    | some d =>
      by_cases h1 : (("/var"), ("description.uploading")) ∈ fs.faulty
      · simp [h1, Except.isOk, Except.toBool]
      · by_cases h2 : (("/var"), ("description")) ∈ fs.faulty
        · simp [h1, h2, Except.isOk, Except.toBool]
        · simp [h1, h2, Except.isOk, Except.toBool]
  · intro hd
    rw [SavedUiViewSet.update_description, hd]
  · intro d hd h1 h2
    simp only [SavedUiViewSet.update_description, hd, if_neg h1, if_neg h2]
    rfl

/-- C8 witness: updating the description with the valid UTF-8 bytes of
`hi` on a store with one subscriber, and the error characterization at
those bytes. -/
theorem C8_update_description_witness :
    demoStore.update_description emptyFS [104, 105] =
      .ok ({ demoStore with description := ("hi") },
        emptyFS.write (("/var"), ("description")) (.bytes [104, 105]),
        demoStore.subscribers.map (fun sub =>
          (sub.2, encode_websocket_message
            (utf8Encode (Action.to_json (.Description ("hi"))))))) ∧
    ((demoStore.update_description emptyFS [104, 105]).isOk = false ↔
      (utf8Decode [104, 105] = none ∨
        (("/var"), ("description.uploading")) ∈ emptyFS.faulty ∨
        (("/var"), ("description")) ∈ emptyFS.faulty)) :=
  ⟨(C8_update_description demoStore emptyFS [104, 105]).2.2 ("hi")
      (by decide) (by decide) (by decide),
   (C8_update_description demoStore emptyFS [104, 105]).1⟩

/-! ## Replay counting -/

theorem insertCount_map_views (vs : List (String × SavedUiViewData))
    (t : String) (hnd : (vs.map Prod.fst).Nodup) :
    insertCount t (vs.map (fun tv => Action.Insert tv.1 tv.2)) =
      if (lookupKey vs t).isSome then 1 else 0 := by
  induction vs with
  | nil => rfl
  | cons e rest ih =>
    rw [List.map_cons, List.nodup_cons] at hnd
    rw [List.map_cons]
    by_cases he : t = e.1
    · have hnone : lookupKey rest t = none := by
        apply lookupKey_eq_none_of_not_mem
        rw [he]
        exact hnd.1
      have hcountr := ih hnd.2
      rw [hnone] at hcountr
      simp only [Option.isSome_none, Bool.false_eq_true, if_false] at hcountr
      rw [insertCount, List.filter_cons_of_pos
        (by simp [isInsertFor, he.symm])]
      rw [List.length_cons, insertCount] at *
      rw [hcountr]
      simp [lookupKey, if_pos he]
    · rw [insertCount, List.filter_cons_of_neg
        (by simp [isInsertFor]; exact fun h => absurd h.symm he)]
      rw [← insertCount, ih hnd.2]
      simp [lookupKey, if_neg he]

/-- C6: subscribing a new streaming connection replays, in order, one
`CanWrite` notification with the caller's flag, one `Description`
notification with the current description, then exactly one `Insert`
notification per stored reference in map order (for any store whose map
keys are distinct, as `HashMap` guarantees): the count of `Insert`
notifications for a token is 1 when the token is stored and 0 when not. -/
theorem C6_subscribe_replay (s : SavedUiViewSet) (client_stream : Nat)
    (can_write : Bool) (hnd : (s.views.map Prod.fst).Nodup) :
    (s.new_subscribed_websocket client_stream can_write).2.2 =
      Action.CanWrite can_write :: Action.Description s.description ::
        s.views.map (fun tv => Action.Insert tv.1 tv.2) ∧
    (∀ t, insertCount t (s.new_subscribed_websocket client_stream can_write).2.2 =
      if (lookupKey s.views t).isSome then 1 else 0) := by
  refine ⟨rfl, fun t => ?_⟩
  show insertCount t (Action.CanWrite can_write :: Action.Description s.description ::
    s.views.map (fun tv => Action.Insert tv.1 tv.2)) = _
  rw [insertCount, List.filter_cons_of_neg (by simp [isInsertFor]),
    List.filter_cons_of_neg (by simp [isInsertFor])]
  exact insertCount_map_views s.views t hnd

/-- C6 witness: a fresh subscriber of a store holding the single token
`AQ` gets the `CanWrite` flag, the description, then exactly one `Insert`
for `AQ`. -/
theorem C6_subscribe_replay_witness :
    (demoViewStore.new_subscribed_websocket 9 true).2.2 =
      Action.CanWrite true :: Action.Description ("d") ::
        [Action.Insert ("AQ")
          { title := ("t"), date_added := 7, added_by := ("a") }] ∧
    insertCount ("AQ") (demoViewStore.new_subscribed_websocket 9 true).2.2 = 1 := by
  have h := C6_subscribe_replay demoViewStore 9 true (by decide)
  refine ⟨h.1, ?_⟩
  rw [h.2 ("AQ")]
  decide

/-- C4 counterexample: `rustc_serialize`'s `URL_SAFE` base64 config has
`pad: false`, so inserting the raw token bytes `[0x01, 0x02]` yields the
token `AQI`, not the claimed `AQI=`: at the concrete input no entry and
no file keyed `AQI=` exist. -/
theorem C4_insert_token_counterexample :
    toBase64UrlSafe [1, 2] = ("AQI") ∧
    toBase64UrlSafe [1, 2] ≠ ("AQI=") ∧
    ((demoStore.insert emptyFS [1, 2] ("My Grain") ("alice") 5).toOption.map
      (fun r => lookupKey r.1.views ("AQI="))) = some none ∧
    ((demoStore.insert emptyFS [1, 2] ("My Grain") ("alice") 5).toOption.map
      (fun r => r.2.1.read (("/var/sturdyrefs"), ("AQI=")))) = some none := by
  decide

/-- C4 (amended): `insert([0x01,0x02], "My Grain", "alice")` on an empty
store succeeds with externally visible token `AQI` (unpadded URL-safe
base64 of the bytes), creates the file named `AQI` under the store's base
path holding title, timestamp and added-by, and broadcasts the `Insert`
notification carrying that token, title and `added_by` to every open
subscriber. -/
theorem C4_insert_scenario (s : SavedUiViewSet) (fs : FS) (now : Nat)
    (hempty : s.views = [])
    (hok : (s.base_path, ("AQI")) ∉ fs.faulty) :
    ∃ s2 fs2 out,
      s.insert fs [1, 2] ("My Grain") ("alice") now = .ok (s2, fs2, out) ∧
      fs2.read (s.base_path, ("AQI")) = some (.meta
        { title := ("My Grain"), date_added := now, added_by := ("alice") }) ∧
      lookupKey s2.views ("AQI") = some
        { title := ("My Grain"), date_added := now, added_by := ("alice") } ∧
      out = s.subscribers.map (fun sub =>
        (sub.2, encode_websocket_message (utf8Encode (Action.to_json
          (.Insert ("AQI")
            { title := ("My Grain"), date_added := now,
              added_by := ("alice") }))))) := by
  have ht : toBase64UrlSafe [1, 2] = ("AQI") := rfl
  rw [SavedUiViewSet.insert, ht, if_neg hok]
  refine ⟨_, _, _, rfl, ?_, ?_, rfl⟩
  · exact lookupKey_upsertKey_self fs.files _ _
  · exact lookupKey_upsertKey_self s.views _ _

/-- C4 witness: the amended scenario at the concrete one-subscriber store
over the empty filesystem, at clock value 5. -/
theorem C4_insert_scenario_witness :
    ∃ s2 fs2 out,
      demoStore.insert emptyFS [1, 2] ("My Grain") ("alice") 5 =
        .ok (s2, fs2, out) ∧
      fs2.read (demoStore.base_path, ("AQI")) = some (.meta
        { title := ("My Grain"), date_added := 5, added_by := ("alice") }) ∧
      lookupKey s2.views ("AQI") = some
        { title := ("My Grain"), date_added := 5, added_by := ("alice") } ∧
      out = demoStore.subscribers.map (fun sub =>
        (sub.2, encode_websocket_message (utf8Encode (Action.to_json
          (.Insert ("AQI")
            { title := ("My Grain"), date_added := 5,
              added_by := ("alice") }))))) :=
  C4_insert_scenario demoStore emptyFS 5 rfl (by decide)

/-! ## Serializer shape lemmas -/

theorem string_data_append (a b : String) :
    (a ++ b).data = a.data ++ b.data := by
  cases a
  cases b
  rfl

theorem dropLit_append (lit r : List Char) :
    dropLit lit (lit ++ r) = some r := by
  induction lit with
  | nil => rfl
  | cons c rest ih => simp [dropLit, ih]

theorem dropLit_nil (cs : List Char) : dropLit [] cs = some cs := rfl

theorem dropLit_cons_self (c : Char) (ls cs : List Char) :
    dropLit (c :: ls) (c :: cs) = dropLit ls cs := by
  simp [dropLit]

theorem readQuoted_append (xs r : List Char) (h : ∀ c ∈ xs, c ≠ '"') :
    readQuoted (xs ++ '"' :: r) = some (xs, r) := by
  induction xs with
  | nil => rfl
  | cons c rest ih =>
    have hc : c ≠ '"' := h c (by simp)
    have ih2 := ih (fun d hd => h d (by simp [hd]))
    simp [List.cons_append, readQuoted, if_neg hc, ih2]

theorem natDecimalChars_digits (n : Nat) :
    ∀ c ∈ natDecimalChars n, ∃ d, d < 10 ∧ c = Char.ofNat (48 + d) := by
  induction n using Nat.strong_induction_on with
  | _ n ih =>
    rw [natDecimalChars]
    split
    · rename_i h
      intro c hc
      simp only [List.mem_singleton] at hc
      exact ⟨n, h, hc⟩
    · rename_i h
      intro c hc
      rcases List.mem_append.mp hc with h2 | h2
      · exact ih (n / 10) (Nat.div_lt_self (by omega) (by omega)) c h2
      · simp only [List.mem_singleton] at h2
        exact ⟨n % 10, Nat.mod_lt _ (by omega), h2⟩

theorem natDecimal_no_quote (n : Nat) :
    ∀ c ∈ (natDecimal n).data, c ≠ '"' := by
  intro c hc
  obtain ⟨d, hd, rfl⟩ := natDecimalChars_digits n c hc
  interval_cases d <;> decide

/-- C10: the notification serializer embeds its string fields verbatim —
whenever token, title and added_by contain no double quote and no
backslash the serialized `Insert` payload is a well-formed record of the
documented shape whose fields parse back verbatim, but for the title
`a"b` (which contains a double quote) the payload is not a well-formed
record of that shape. -/
theorem C10_serializer_no_escaping :
    (∀ (token title added_by : String) (n : Nat),
      noQuoteOrBackslash token → noQuoteOrBackslash title →
      noQuoteOrBackslash added_by →
      decodeInsertShape ((Action.Insert token
          { title := title, date_added := n, added_by := added_by }).to_json) =
        some (token, title, natDecimal n, added_by)) ∧
    decodeInsertShape ((Action.Insert ("AQI")
        { title := String.mk ['a', '"', 'b'], date_added := 0,
          added_by := ("alice") }).to_json) = none := by
  constructor
  · intro token title added_by n htok htit hadd
    have htok2 : ∀ c ∈ token.data, c ≠ '"' := fun c hc => (htok c hc).1
    have htit2 : ∀ c ∈ title.data, c ≠ '"' := fun c hc => (htit c hc).1
    have hadd2 : ∀ c ∈ added_by.data, c ≠ '"' := fun c hc => (hadd c hc).1
    have hq1 : ("\",\"data\":").data = '"' :: ((",\"data\":").data) := rfl
    have hq2 : ("\",\"date_added\": \"").data =
      '"' :: ((",\"date_added\": \"").data) := rfl
    have hq3 : ("\",\"added_by\":\"").data =
      '"' :: ((",\"added_by\":\"").data) := rfl
    have hq4 : ("\"\x7d").data = '"' :: (("\x7d").data) := rfl
    unfold decodeInsertShape Action.to_json SavedUiViewData.to_json
    simp only [string_data_append, hq1, hq2, hq3, hq4, List.append_assoc,
      List.cons_append, List.nil_append, dropLit_cons_self, dropLit_nil,
      Option.some_bind]
    rw [readQuoted_append _ _ htok2]
    simp only [Option.some_bind, dropLit_cons_self, dropLit_nil,
      List.nil_append]
    rw [readQuoted_append _ _ htit2]
    simp only [Option.some_bind, dropLit_cons_self, dropLit_nil,
      List.nil_append]
    rw [readQuoted_append _ _ (natDecimal_no_quote n)]
    simp only [Option.some_bind, dropLit_cons_self, dropLit_nil,
      List.nil_append]
    rw [readQuoted_append _ _ hadd2]
    simp only [Option.some_bind]
    simp only [if_true]
  · decide

/-- C10 witness: parsing back the serialized `Insert` payload for the
quote-free token `AQI`, title `My Grain`, creator `alice` and
timestamp 5. -/
theorem C10_serializer_no_escaping_witness :
    decodeInsertShape ((Action.Insert ("AQI")
        { title := ("My Grain"), date_added := 5,
          added_by := ("alice") }).to_json) =
      some (("AQI"), ("My Grain"), natDecimal 5, ("alice")) :=
  C10_serializer_no_escaping.1 ("AQI") ("My Grain") ("alice") 5
    (by decide) (by decide) (by decide)

/-! ## Heartbeat lemmas -/

theorem hbRun_fail_of_no_pong (evs : List HBEvent)
    (h : ∀ e ∈ evs, isPongFrame e = false) :
    hbRun true (evs ++ [HBEvent.deadline]) = none := by
  induction evs with
  | nil => rfl
  | cons e rest ih =>
    cases e with
    | frame m =>
      have hm : ¬ (m.getD 0 0 &&& 0xf = 0xa) := by
        have := h (.frame m) (by simp)
        simpa [isPongFrame] using this
      simp only [List.cons_append, hbRun, if_neg hm]
      exact ih (fun e2 he2 => h e2 (by simp [he2]))
    | deadline => rfl

theorem hbRun_false_of_frames (seg : List HBEvent)
    (hfr : ∀ e ∈ seg, isFrameEvent e = true) (tail : List HBEvent) :
    hbRun false (seg ++ tail) = hbRun false tail := by
  induction seg with
  | nil => rfl
  | cons e rest ih =>
    cases e with
    | frame m =>
      simp only [List.cons_append, hbRun, ite_self]
      exact ih (fun e2 he2 => hfr e2 (by simp [he2]))
    | deadline =>
      have := hfr .deadline (by simp)
      simp [isFrameEvent] at this

theorem hbRun_pong_cycle (seg : List HBEvent) (b : Bool)
    (hfr : ∀ e ∈ seg, isFrameEvent e = true)
    (hpong : ∃ e ∈ seg, isPongFrame e = true) (tail : List HBEvent) :
    hbRun b (seg ++ tail) = hbRun false tail := by
  induction seg generalizing b with
  | nil =>
    obtain ⟨e, he, -⟩ := hpong
    simp at he
  | cons e rest ih =>
    cases e with
    | frame m =>
      cases hb : isPongFrame (HBEvent.frame m) with
      | true =>
        have hm2 : m.getD 0 0 &&& 0xf = 0xa := of_decide_eq_true hb
        simp only [List.cons_append, hbRun, if_pos hm2]
        exact hbRun_false_of_frames rest
          (fun e2 he2 => hfr e2 (by simp [he2])) tail
      | false =>
        have hm2 : ¬ (m.getD 0 0 &&& 0xf = 0xa) := of_decide_eq_false hb
        simp only [List.cons_append, hbRun, if_neg hm2]
        apply ih b (fun e2 he2 => hfr e2 (by simp [he2]))
        obtain ⟨e2, he2, hp2⟩ := hpong
        rcases List.mem_cons.mp he2 with h2 | h2
        · rw [h2, hb] at hp2
          exact Bool.noConfusion hp2
        · exact ⟨e2, h2, hp2⟩
    | deadline =>
      have := hfr .deadline (by simp)
      simp [isFrameEvent] at this

theorem hbRun_cycles_live (segs : List (List HBEvent))
    (h : ∀ seg ∈ segs, (∀ e ∈ seg, isFrameEvent e = true) ∧
      ∃ e ∈ seg, isPongFrame e = true) :
    hbRun true (joinCycles segs) = some true := by
  induction segs with
  | nil => rfl
  | cons seg rest ih =>
    have hseg := h seg (by simp)
    rw [joinCycles, hbRun_pong_cycle seg true hseg.1 hseg.2]
    show hbRun true (joinCycles rest) = some true
    exact ih (fun s2 hs2 => h s2 (by simp [hs2]))

/-- C2 counterexample: at the concrete one-subscriber store, when the
deadline fires with `awaiting_pong` still set the heartbeat chain does
end in the `Failed` error, but the subscriber set is untouched — it does
not equal the set with the connection's subscription removed, contrary to
the claim. -/
theorem C2_heartbeat_counterexample :
    hbRun true [HBEvent.deadline] = none ∧
    (connectionDeadlineStep demoStore true).2 = none ∧
    (connectionDeadlineStep demoStore true).1.subscribers = [(0, 7)] ∧
    (connectionDeadlineStep demoStore true).1.subscribers ≠
      (webSocketStreamDrop 0 demoStore).subscribers := by
  decide

/-- C2 (amended): if the deadline fires while `awaiting_pong` is still
set, the heartbeat ends in the `Failed` error — but this error is mapped
to `Ok` by the connection's `map_else` wrapper and the subscriber set is
left unchanged; the subscription is removed only when the connection
object is dropped. If a pong frame arrives before each deadline, the
cycle repeats indefinitely without entering `Failed`. -/
theorem C2_heartbeat_failed_but_not_removed :
    (∀ evs : List HBEvent, (∀ e ∈ evs, isPongFrame e = false) →
      hbRun true (evs ++ [HBEvent.deadline]) = none) ∧
    (∀ set : SavedUiViewSet, (connectionDeadlineStep set true).2 = none ∧
      (connectionDeadlineStep set true).1.subscribers = set.subscribers) ∧
    (∀ e : String, pingPongMapElse (.error e) = .ok ()) ∧
    (∀ (id : Nat) (set : SavedUiViewSet),
      (webSocketStreamDrop id set).subscribers = dropKey set.subscribers id) ∧
    (∀ segs : List (List HBEvent),
      (∀ seg ∈ segs, (∀ e ∈ seg, isFrameEvent e = true) ∧
        ∃ e ∈ seg, isPongFrame e = true) →
      hbRun true (joinCycles segs) = some true) := by
  exact ⟨hbRun_fail_of_no_pong, fun set => ⟨rfl, rfl⟩, fun e => rfl,
    fun id set => rfl, hbRun_cycles_live⟩

/-- C2 witness: a ping frame received from the client does not avert the
failure (only a pong does), and one pong-answered cycle keeps the machine
live. -/
theorem C2_heartbeat_failed_but_not_removed_witness :
    hbRun true [HBEvent.frame [0x89, 0], HBEvent.deadline] = none ∧
    hbRun true (joinCycles [[HBEvent.frame [0x8a, 0]]]) = some true :=
  ⟨C2_heartbeat_failed_but_not_removed.1 [HBEvent.frame [0x89, 0]]
      (by decide),
   C2_heartbeat_failed_but_not_removed.2.2.2.2 [[HBEvent.frame [0x8a, 0]]]
      (by decide)⟩

/-! ## Durability lemmas -/

theorem loadViews_lookup (dir : String) (faulty : List (String × String))
    (files : List ((String × String) × FileData))
    (vs : List (String × SavedUiViewData))
    (h : SavedUiViewSet.loadViews dir faulty files = .ok vs) (k : String) :
    lookupKey vs k =
      (lookupKey files (dir, k)).bind
        (fun f => match f with | .meta d => some d | .bytes _ => none) := by
  induction files generalizing vs with
  | nil =>
    cases h
    rfl
  | cons e rest ih =>
    obtain ⟨⟨d, name⟩, data⟩ := e
    simp only [SavedUiViewSet.loadViews] at h
    by_cases hd : d = dir
    · rw [if_pos hd] at h
      by_cases hfa : (d, name) ∈ faulty
      · rw [if_pos hfa] at h
        cases h
      · rw [if_neg hfa] at h
        cases data with
        | bytes bs => cases h
        | meta m =>
          cases hrec : SavedUiViewSet.loadViews dir faulty rest with
          | error e2 =>
            rw [hrec] at h
            cases h
          | ok vs2 =>
            rw [hrec] at h
            cases h
            subst hd
            by_cases hk : k = name
            · subst hk
              simp [lookupKey]
            · have hne : ¬ ((d, k) = (d, name)) := by
                intro heq
                cases heq
                exact hk rfl
              simp only [lookupKey, if_pos rfl, if_neg hk, if_neg hne]
              exact ih vs2 hrec
    · rw [if_neg hd] at h
      have hne : ¬ ((dir, k) = (d, name)) := by
        intro heq
        cases heq
        exact hd rfl
      simp only [lookupKey, if_neg hne]
      exact ih vs h

theorem new_agree (fs : FS) (s : SavedUiViewSet) (fs2 : FS)
    (h : SavedUiViewSet.new ("/var/sturdyrefs") fs = .ok (s, fs2)) :
    s.base_path = ("/var/sturdyrefs") ∧ s.views = s.views ∧
      StoreFsAgree s fs ∧ StoreFsAgree s fs2 := by
  rw [SavedUiViewSet.new] at h
  split at h
  · cases h
  · rename_i vs hlv
    split at h
    · rename_i f hrd
      cases h
      exact ⟨rfl, rfl, fun k => loadViews_lookup _ _ _ _ hlv k,
        fun k => loadViews_lookup _ _ _ _ hlv k⟩
    · rename_i hrd
      split at h
      · cases h
      · rename_i hfa
        cases h
        refine ⟨rfl, rfl, fun k => loadViews_lookup _ _ _ _ hlv k,
          fun k => ?_⟩
        have hne : ¬ ((("/var/sturdyrefs"), k) = (("/var"), ("description"))) := by
          intro heq
          have h2 : ("/var/sturdyrefs") = ("/var") := congrArg Prod.fst heq
          exact absurd h2 (by decide)
        show lookupKey vs k = _
        show lookupKey vs k =
          (lookupKey (upsertKey fs.files _ _) (("/var/sturdyrefs"), k)).bind _
        rw [lookupKey_upsertKey_ne _ _ _ _ hne]
        exact loadViews_lookup _ _ _ _ hlv k

theorem applyOp_agree (s : SavedUiViewSet) (fs : FS) (op : StoreOp)
    (hbp : s.base_path = ("/var/sturdyrefs")) (hag : StoreFsAgree s fs) :
    (applyOp s fs op).1.base_path = ("/var/sturdyrefs") ∧
      StoreFsAgree (applyOp s fs op).1 (applyOp s fs op).2 := by
  cases op with
  | insert raw title added_by now =>
    cases hi : s.insert fs raw title added_by now with
    | error e =>
      simp only [applyOp, hi]
      exact ⟨hbp, hag⟩
    | ok r =>
      simp only [applyOp, hi]
      rw [SavedUiViewSet.insert] at hi
      by_cases hf : (s.base_path, toBase64UrlSafe raw) ∈ fs.faulty
      · rw [if_pos hf] at hi
        cases hi
      · rw [if_neg hf] at hi
        cases hi
        refine ⟨hbp, fun k => ?_⟩
        by_cases hk : k = toBase64UrlSafe raw
        · subst hk
          rw [lookupKey_upsertKey_self]
          show _ = (lookupKey (upsertKey fs.files _ _) _).bind _
          rw [hbp, lookupKey_upsertKey_self]
          rfl
        · rw [lookupKey_upsertKey_ne _ _ _ _ hk]
          show _ = (lookupKey (upsertKey fs.files _ _) _).bind _
          rw [hbp, lookupKey_upsertKey_ne _ _ _ _
            (fun heq => hk (congrArg Prod.snd heq))]
          exact hag k
  | remove token =>
    cases hr : s.remove fs token with
    | error e =>
      simp only [applyOp, hr]
      exact ⟨hbp, hag⟩
    | ok r =>
      simp only [applyOp, hr]
      rw [SavedUiViewSet.remove] at hr
      by_cases hf : (("/var/sturdyrefs"), token) ∈ fs.faulty
      · rw [if_pos hf] at hr
        cases hr
      · rw [if_neg hf] at hr
        cases hr
        refine ⟨hbp, fun k => ?_⟩
        by_cases hk : k = token
        · subst hk
          rw [lookupKey_dropKey_self]
          show _ = (lookupKey (dropKey fs.files _) _).bind _
          rw [lookupKey_dropKey_self]
          rfl
        · rw [lookupKey_dropKey_ne _ _ _ hk]
          show _ = (lookupKey (dropKey fs.files _) _).bind _
          rw [lookupKey_dropKey_ne _ _ _
            (fun heq => hk (congrArg Prod.snd heq))]
          exact hag k

theorem applyOps_agree (ops : List StoreOp) (s : SavedUiViewSet) (fs : FS)
    (hbp : s.base_path = ("/var/sturdyrefs")) (hag : StoreFsAgree s fs) :
    (applyOps s fs ops).1.base_path = ("/var/sturdyrefs") ∧
      StoreFsAgree (applyOps s fs ops).1 (applyOps s fs ops).2 := by
  induction ops generalizing s fs with
  | nil => exact ⟨hbp, hag⟩
  | cons op rest ih =>
    have hstep := applyOp_agree s fs op hbp hag
    exact ih (applyOp s fs op).1 (applyOp s fs op).2 hstep.1 hstep.2

/-- C1 counterexample: on a store opened on the empty directory `d`
(not the hardcoded removal root), after `insert [0x01]` (token `AQ`)
followed by `remove "AQ"`, the in-memory map no longer holds `AQ` but
the file `d/AQ` was never unlinked (the unlink went to
`/var/sturdyrefs/AQ`), so a fresh store built from the resulting files
holds `AQ` again: the two maps differ. -/
theorem C1_durability_counterexample :
    ((SavedUiViewSet.new ("d") emptyFS).toOption.bind (fun p =>
      (SavedUiViewSet.new ("d") (applyOps p.1 p.2 demoOps).2).toOption.map
        (fun q =>
          (lookupKey (applyOps p.1 p.2 demoOps).1.views ("AQ"),
           lookupKey q.1.views ("AQ"))))) =
      some (none,
        some { title := ("t"), date_added := 7, added_by := ("a") }) := by
  decide

/-- C1 (amended): when the store's directory is the hardcoded removal
root `/var/sturdyrefs` (as in production, where `main` opens the store
on exactly that directory), every finite sequence of insert and remove
operations leaves the in-memory token map extensionally equal to the map
a fresh `SavedUiViewSet::new` builds from the resulting on-disk files. -/
theorem C1_durability_roundtrip_at_hardcoded_root (ops : List StoreOp)
    (fs0 : FS) (s0 : SavedUiViewSet) (fs1 : FS)
    (h0 : SavedUiViewSet.new ("/var/sturdyrefs") fs0 = .ok (s0, fs1))
    (sR : SavedUiViewSet) (fsR : FS)
    (hR : SavedUiViewSet.new ("/var/sturdyrefs") (applyOps s0 fs1 ops).2 =
      .ok (sR, fsR)) :
    ∀ k, lookupKey (applyOps s0 fs1 ops).1.views k = lookupKey sR.views k := by
  obtain ⟨hbp, -, -, hag⟩ := new_agree fs0 s0 fs1 h0
  obtain ⟨-, hag2⟩ := applyOps_agree ops s0 fs1 hbp hag
  obtain ⟨-, -, hagR, -⟩ := new_agree _ sR fsR hR
  intro k
  rw [hag2 k, hagR k]

/-- C1 witness: the round-trip at the hardcoded root for the concrete
trace insert `[0x01]` then remove `AQ` from a first run on the empty
filesystem. -/
theorem C1_durability_roundtrip_at_hardcoded_root_witness :
    lookupKey (applyOps freshRootStore freshRootFS demoOps).1.views ("AQ") =
      lookupKey freshRootStore.views ("AQ") :=
  C1_durability_roundtrip_at_hardcoded_root demoOps emptyFS freshRootStore
    freshRootFS (by rfl) freshRootStore freshRootFS (by rfl) ("AQ")

end Collections
